import Mathlib

/-!
Verification of the PGL quick-start tutorial notebook
(`tutorials/quick_start.ipynb`).

The notebook builds a small hard-coded graph, defines a stacked-GCNConv
classifier with a linear output layer, and trains it for 30 epochs with
cross-entropy loss and Adam.

Shallow embedding conventions:
* numpy / paddle scalars are modelled as rationals (`ℚ`); matrices are
  lists of row lists; a numpy array additionally carries its dtype string;
* the external library operators that the notebook merely calls
  (`pgl.nn.GCNConv` message passing, autograd `backward`, `Adam.step`,
  `clear_grad`, `CrossEntropyLoss`) are abstracted as function parameters,
  while everything the notebook itself does is embedded concretely;
* `np.random.randn(r, c)` is modelled by an arbitrary sampler
  `rng : Nat → Nat → ℚ` arranged into the requested `r × c` shape, which is
  the library contract of `randn`;
* the training loop is a state machine; each external call made inside an
  epoch is additionally recorded in an event trace so that the order and
  the number of the calls become provable facts.
-/

namespace PGL

/-- A matrix of rational scalars: a list of rows. -/
abbrev Mat := List (List ℚ)

/-- A numpy ndarray: its dtype string together with its (2-D) contents. -/
structure NPArray where
  dtype : String
  data : Mat
  deriving DecidableEq

/-- `a.astype(t)`: same contents, new dtype. -/
def NPArray.astype (a : NPArray) (t : String) : NPArray :=
  { dtype := t, data := a.data }

/-- `np.random.randn(r, c)`: an `r × c` float64 sample drawn from the
ambient sampler `rng`. -/
def randn (rng : Nat → Nat → ℚ) (r c : Nat) : NPArray :=
  { dtype := "float64",
    data := (List.range r).map (fun i => (List.range c).map (fun j => rng i j)) }

/-- `pgl.Graph(edges, num_nodes, node_feat, edge_feat)`: the graph object
stores the edge list, the declared node count and the two feature dicts
(modelled as association lists). -/
structure PGLGraph where
  edges : List (Int × Int)
  num_nodes : Nat
  node_feat : List (String × NPArray)
  edge_feat : List (String × NPArray)
  deriving DecidableEq

/-- `g.num_edges` is the length of the stored edge list. -/
def PGLGraph.num_edges (g : PGLGraph) : Nat :=
  g.edges.length

/-- `g.tensor()` converts the numpy payloads to paddle tensors; over the
uniform rational scalar model this representation change is the identity
on the stored content. -/
def PGLGraph.tensor (g : PGLGraph) : PGLGraph :=
  g

/-- The contents of `g.node_feat["nfeat"]` (empty if absent). -/
def nfeatOf (g : PGLGraph) : Mat :=
  ((g.node_feat.lookup "nfeat").map NPArray.data).getD []

/-- The contents of `g.edge_feat["efeat"]` (empty if absent). -/
def efeatOf (g : PGLGraph) : Mat :=
  ((g.edge_feat.lookup "efeat").map NPArray.data).getD []

/-- The hard-coded edge list of the tutorial graph. -/
def edge_list : List (Int × Int) :=
  [(2, 0), (2, 1), (3, 1), (4, 0), (5, 0),
   (6, 0), (6, 4), (6, 5), (7, 0), (7, 1),
   (7, 2), (7, 3), (8, 0), (9, 7)]

/-- `build_graph()` from the notebook.  The two `np.random.randn` draws are
parameterised by their samplers. -/
def build_graph (rngN rngE : Nat → Nat → ℚ) : PGLGraph :=
  let num_node := 10
  let d := 16
  let feature := (randn rngN num_node d).astype "float32"
  let edge_feature := (randn rngE edge_list.length 1).astype "float32"
  { edges := edge_list,
    num_nodes := num_node,
    node_feat := [("nfeat", feature)],
    edge_feat := [("efeat", edge_feature)] }

/-- `pgl.nn.GCNConv(input_size, output_size, activation, norm)`: the
constructor arguments of a library GCN convolution layer.  Its forward
semantics (message passing) lives in the external library and is
abstracted as a function parameter wherever a layer is applied. -/
structure GCNConv where
  input_size : Nat
  output_size : Nat
  activation : String
  norm : Bool
  deriving DecidableEq

/-- The type of the external library's layer application
`layer(graph, feature)`. -/
abbrev ConvApply := GCNConv → PGLGraph → Mat → Mat

/-- `paddle.nn.Linear(in_features, out_features)` with its (library
initialised) weight matrix and bias vector. -/
structure Linear where
  in_features : Nat
  out_features : Nat
  weight : Mat
  bias : List ℚ
  deriving DecidableEq

/-- Dot product of two rational vectors. -/
def dot (xs ys : List ℚ) : ℚ :=
  (List.zipWith (fun a b => a * b) xs ys).sum

/-- One output row of a linear layer: `row · W + b`, one entry per output
feature. -/
def Linear.applyRow (l : Linear) (row : List ℚ) : List ℚ :=
  (List.range l.out_features).map
    (fun j => dot row (l.weight.map (fun wr => wr.getD j 0)) + l.bias.getD j 0)

/-- `l(x)`: the linear layer applied to every row of `x`. -/
def Linear.forward (l : Linear) (x : Mat) : Mat :=
  x.map l.applyRow

/-- The `GCN` module of the notebook: its hyperparameters, the
`nn.LayerList` of `GCNConv` layers and the final `nn.Linear`. -/
structure GCN where
  num_class : Nat
  num_layers : Nat
  hidden_size : Nat
  gcns : List GCNConv
  output : Linear
  deriving DecidableEq

/-- The layer-construction loop of `GCN.__init__`:
`for i in range(num_layers)`, appending the `input_size → hidden_size`
convolution when `i == 0` and a `hidden_size → hidden_size` convolution
otherwise. -/
def GCN.buildGcns (input_size hidden_size num_layers : Nat) : List GCNConv :=
  (List.range num_layers).foldl
    (fun acc i =>
      acc ++ [if i = 0 then
                { input_size := input_size, output_size := hidden_size,
                  activation := "relu", norm := true }
              else
                { input_size := hidden_size, output_size := hidden_size,
                  activation := "relu", norm := true }])
    []

/-- `GCN.__init__(input_size, num_class, num_layers, hidden_size)`.
`w` and `b` stand for the weight and bias that `nn.Linear` initialises
internally. -/
def GCN.make (input_size num_class : Nat) (w : Mat) (b : List ℚ)
    (num_layers hidden_size : Nat) : GCN :=
  { num_class := num_class,
    num_layers := num_layers,
    hidden_size := hidden_size,
    gcns := GCN.buildGcns input_size hidden_size num_layers,
    output := { in_features := hidden_size, out_features := num_class,
                weight := w, bias := b } }

/-- Python default argument `num_layers=2`. -/
def GCN.num_layers_default : Nat := 2

/-- Python default argument `hidden_size=16`. -/
def GCN.hidden_size_default : Nat := 16

/-- `GCN(input_size, num_class)` with the default `num_layers` and
`hidden_size`. -/
def GCN.mkDefault (input_size num_class : Nat) (w : Mat) (b : List ℚ) : GCN :=
  GCN.make input_size num_class w b GCN.num_layers_default GCN.hidden_size_default

/-- `GCN.forward(graph, feature)`: the running feature is threaded through
`self.gcns` in order (`for m in self.gcns: feature = m(graph, feature)`)
and the result goes through `self.output`. -/
def GCN.forward (ca : ConvApply) (net : GCN) (graph : PGLGraph) (feature : Mat) : Mat :=
  Linear.forward net.output (net.gcns.foldl (fun f m => ca m graph f) feature)

/-- Explicit sequential composition of a list of convolution layers, first
layer applied first. -/
def composeLayers (ca : ConvApply) (graph : PGLGraph) : List GCNConv → Mat → Mat
  | [], f => f
  | c :: rest, f => composeLayers ca graph rest (ca c graph f)

/-- The straight-line layer construction as the spec describes it: one
`input_size → hidden_size` convolution first, then a
`hidden_size → hidden_size` convolution for every later index. -/
def gcnsStraightLine (input_size hidden_size num_layers : Nat) : List GCNConv :=
  match num_layers with
  | 0 => []
  | Nat.succ k =>
      { input_size := input_size, output_size := hidden_size,
        activation := "relu", norm := true } ::
      List.replicate k
        { input_size := hidden_size, output_size := hidden_size,
          activation := "relu", norm := true }

/-- The label list `y = [0,1,1,1,0,0,0,1,0,1]`. -/
def y : List Int := [0, 1, 1, 1, 0, 0, 0, 1, 0, 1]

/-- `label = np.array(y, dtype="float32")` (unused afterwards in the
notebook). -/
def label : List ℚ := y.map (fun v => (v : ℚ))

/-- The trainable model: the `GCN` module together with the external
library's layer-application function (whose internal convolution weights
the optimizer may also update). -/
structure Model where
  net : GCN
  convApply : ConvApply

/-- `gcn(g, feature)`: `nn.Layer.__call__` dispatches to `GCN.forward`. -/
def Model.forward (m : Model) (graph : PGLGraph) (feature : Mat) : Mat :=
  GCN.forward m.convApply m.net graph feature

/-- One external call made inside a training iteration. -/
inductive Event where
  | forwardCall
  | lossCall
  | backwardCall
  | stepCall
  | clearGradCall
  | printCall
  deriving DecidableEq

/-- The exact sequence of calls one iteration of the training loop makes. -/
def epochEvents : List Event :=
  [Event.forwardCall, Event.lossCall, Event.backwardCall,
   Event.stepCall, Event.clearGradCall, Event.printCall]

/-- The external deep-learning machinery the loop calls into:
cross-entropy, autograd backward, an Adam step, and gradient clearing.
`G` is the type of gradient stores, `O` of optimizer states. -/
structure Engine (G O : Type) where
  crossEntropy : Mat → List Int → ℚ
  backward : ℚ → G → G
  adamStep : G → O → Model → O × Model
  clearGrad : G → G

/-- The mutable state the training loop acts on, plus the trace of
external calls and the last computed loss. -/
structure TrainState (G O : Type) where
  model : Model
  grads : G
  opt : O
  graph : PGLGraph
  y : List Int
  loss : ℚ
  trace : List Event

/-- One iteration of the training loop, exactly as the notebook writes it:
forward pass on the graph's node features, cross-entropy loss against the
labels, backward pass, optimizer step, gradient clear, and the print of
the loss.  Every external call appends its event to the trace. -/
def runEpoch {G O : Type} (E : Engine G O) (s : TrainState G O) : TrainState G O :=
  let logits := s.model.forward s.graph (nfeatOf s.graph)
  let s := { s with trace := s.trace ++ [Event.forwardCall] }
  let lossv := E.crossEntropy logits s.y
  let s := { s with loss := lossv, trace := s.trace ++ [Event.lossCall] }
  let s := { s with grads := E.backward lossv s.grads,
                    trace := s.trace ++ [Event.backwardCall] }
  let p := E.adamStep s.grads s.opt s.model
  let s := { s with opt := p.1, model := p.2,
                    trace := s.trace ++ [Event.stepCall] }
  let s := { s with grads := E.clearGrad s.grads,
                    trace := s.trace ++ [Event.clearGradCall] }
  { s with trace := s.trace ++ [Event.printCall] }

/-- `n` iterations of the training loop. -/
def runEpochs {G O : Type} (E : Engine G O) (n : Nat) (s : TrainState G O) :
    TrainState G O :=
  (List.range n).foldl (fun s _ => runEpoch E s) s

/-- The notebook's training loop: `for epoch in range(30)`. -/
def trainLoop {G O : Type} (E : Engine G O) (s : TrainState G O) : TrainState G O :=
  (List.range 30).foldl (fun s _ => runEpoch E s) s

/-- The state right before the loop starts: `g = g.tensor()`,
`y = paddle.to_tensor(y)`, `gcn = GCN(16, 2)`, fresh optimizer state.
`rngN`, `rngE` are the feature samplers, `w`, `b` the library-initialised
output-layer parameters, `ca` the library layer application. -/
def notebookState {G O : Type} (rngN rngE : Nat → Nat → ℚ) (w : Mat) (b : List ℚ)
    (ca : ConvApply) (g0 : G) (o0 : O) : TrainState G O :=
  { model := { net := GCN.mkDefault 16 2 w b, convApply := ca },
    grads := g0,
    opt := o0,
    graph := (build_graph rngN rngE).tensor,
    y := y,
    loss := 0,
    trace := [] }

/-- The logits the next iteration computes from state `s`:
`gcn(g, g.node_feat["nfeat"])`. -/
def epochLogits {G O : Type} (s : TrainState G O) : Mat :=
  s.model.forward s.graph (nfeatOf s.graph)

/-- Row-count contract of the library convolution: `GCNConv` forward
returns one feature row per node of the graph it is applied to. -/
def rowPreserving (ca : ConvApply) : Prop :=
  ∀ (c : GCNConv) (g : PGLGraph) (f : Mat), (ca c g f).length = g.num_nodes

/-- The architecture invariant the optimizer maintains for the notebook's
model: the convolution application keeps one row per node, and the output
layer still has the notebook's `num_class = 2` output features. -/
def ModelInv (m : Model) : Prop :=
  rowPreserving m.convApply ∧ m.net.output.out_features = 2

/-! ### Fallible mirror

The same components with every external library call allowed to fail,
to state that the notebook's own code neither raises nor catches:
each component is exactly the monadic chain of its library calls. -/

/-- `build_graph()` with the two `np.random.randn` call sites and the
`pgl.Graph` constructor as fallible library calls. -/
def build_graphE {ε : Type} (randnN randnE : Nat → Nat → Except ε NPArray)
    (ctor : List (Int × Int) → Nat → List (String × NPArray) →
      List (String × NPArray) → Except ε PGLGraph) : Except ε PGLGraph := do
  let num_node := 10
  let d := 16
  let feature ← randnN num_node d
  let feature := feature.astype "float32"
  let edge_feature ← randnE edge_list.length 1
  let edge_feature := edge_feature.astype "float32"
  ctor edge_list num_node [("nfeat", feature)] [("efeat", edge_feature)]

/-- `GCN.__init__` with the `GCNConv` and `nn.Linear` constructors as
fallible library calls. -/
def GCN.makeE {ε : Type} (convCtor : Nat → Nat → String → Bool → Except ε GCNConv)
    (linearCtor : Nat → Nat → Except ε Linear)
    (input_size num_class num_layers hidden_size : Nat) : Except ε GCN := do
  let gcns ← (List.range num_layers).foldlM
    (fun acc i => do
      let c ← if i = 0 then convCtor input_size hidden_size "relu" true
              else convCtor hidden_size hidden_size "relu" true
      pure (acc ++ [c]))
    []
  let out ← linearCtor hidden_size num_class
  pure { num_class := num_class, num_layers := num_layers,
         hidden_size := hidden_size, gcns := gcns, output := out }

/-- `GCN.forward` with the layer applications and the linear layer as
fallible library calls. -/
def GCN.forwardE {ε : Type} (convE : GCNConv → PGLGraph → Mat → Except ε Mat)
    (linearE : Linear → Mat → Except ε Mat) (net : GCN) (graph : PGLGraph)
    (feature : Mat) : Except ε Mat := do
  let f ← net.gcns.foldlM (fun f m => convE m graph f) feature
  linearE net.output f

/-- The engine with every call fallible. -/
structure EngineE (ε G O : Type) where
  forwardCall : Model → PGLGraph → Mat → Except ε Mat
  crossEntropy : Mat → List Int → Except ε ℚ
  backward : ℚ → G → Except ε G
  adamStep : G → O → Model → Except ε (O × Model)
  clearGrad : G → Except ε G

/-- A pure engine viewed as a fallible one whose calls always succeed. -/
def Engine.toE {ε G O : Type} (E : Engine G O) : EngineE ε G O :=
  { forwardCall := fun m g f => Except.ok (m.forward g f),
    crossEntropy := fun l ys => Except.ok (E.crossEntropy l ys),
    backward := fun l g => Except.ok (E.backward l g),
    adamStep := fun g o m => Except.ok (E.adamStep g o m),
    clearGrad := fun g => Except.ok (E.clearGrad g) }

/-- One training iteration with fallible library calls, mirroring
`runEpoch` call for call. -/
def runEpochE {ε G O : Type} (E : EngineE ε G O) (s : TrainState G O) :
    Except ε (TrainState G O) := do
  let logits ← E.forwardCall s.model s.graph (nfeatOf s.graph)
  let s := { s with trace := s.trace ++ [Event.forwardCall] }
  let lossv ← E.crossEntropy logits s.y
  let s := { s with loss := lossv, trace := s.trace ++ [Event.lossCall] }
  let g1 ← E.backward lossv s.grads
  let s := { s with grads := g1, trace := s.trace ++ [Event.backwardCall] }
  let p ← E.adamStep s.grads s.opt s.model
  let s := { s with opt := p.1, model := p.2,
                    trace := s.trace ++ [Event.stepCall] }
  let g2 ← E.clearGrad s.grads
  let s := { s with grads := g2, trace := s.trace ++ [Event.clearGradCall] }
  pure { s with trace := s.trace ++ [Event.printCall] }

/-- The training loop with fallible library calls. -/
def trainLoopE {ε G O : Type} (E : EngineE ε G O) (s : TrainState G O) :
    Except ε (TrainState G O) :=
  (List.range 30).foldlM (fun s _ => runEpochE E s) s

/-- A concrete library layer application used to instantiate shape
hypotheses: one (empty) feature row per node. -/
def witnessCa : ConvApply :=
  fun _ g _ => List.replicate g.num_nodes []

/-- A concrete external engine whose step leaves the model unchanged. -/
def witnessEngine : Engine Unit Unit :=
  { crossEntropy := fun _ _ => 0,
    backward := fun _ g => g,
    adamStep := fun _ o m => (o, m),
    clearGrad := fun g => g }

/-- A concrete (constant-zero) sampler. -/
def witnessRng : Nat → Nat → ℚ :=
  fun _ _ => 0

/-! ### Helper lemmas -/

theorem foldl_eq_composeLayers (ca : ConvApply) (g : PGLGraph) :
    ∀ (convs : List GCNConv) (f : Mat),
      convs.foldl (fun f m => ca m g f) f = composeLayers ca g convs f := by
  intro convs
  induction convs with
  | nil => intro f; rfl
  | cons c rest ih => intro f; simpa [composeLayers] using ih (ca c g f)

theorem buildGcns_eq_straightLine (input_size hidden_size : Nat) :
    ∀ num_layers : Nat,
      GCN.buildGcns input_size hidden_size num_layers =
        gcnsStraightLine input_size hidden_size num_layers := by
  intro n
  induction n with
  | zero => rfl
  | succ m ih =>
      unfold GCN.buildGcns at ih ⊢
      rw [List.range_succ, List.foldl_append, ih]
      cases m with
      | zero => rfl
      | succ k =>
          simp [gcnsStraightLine, List.replicate_succ']

theorem map_length_of_const {α β : Type} (f : α → List β) (k : Nat)
    (hf : ∀ a, (f a).length = k) :
    ∀ l : List α, (l.map f).map List.length = List.replicate l.length k := by
  intro l
  induction l with
  | nil => rfl
  | cons a t ih => simp [hf a, ih, List.replicate_succ]

theorem Linear.forward_length (l : Linear) (x : Mat) :
    (Linear.forward l x).length = x.length := by
  simp [Linear.forward]

theorem Linear.forward_rowLengths (l : Linear) (x : Mat) :
    (Linear.forward l x).map List.length = List.replicate x.length l.out_features := by
  unfold Linear.forward
  refine map_length_of_const _ _ ?_ x
  intro row
  simp [Linear.applyRow]

theorem foldl_conv_length (ca : ConvApply) (g : PGLGraph)
    (hca : rowPreserving ca) :
    ∀ (convs : List GCNConv) (f : Mat), f.length = g.num_nodes →
      (convs.foldl (fun f m => ca m g f) f).length = g.num_nodes := by
  intro convs
  induction convs with
  | nil => intro f hf; simpa using hf
  | cons c rest ih => intro f _; simpa using ih (ca c g f) (hca c g f)

theorem runEpoch_trace {G O : Type} (E : Engine G O) (s : TrainState G O) :
    (runEpoch E s).trace = s.trace ++ epochEvents := by
  simp [runEpoch, epochEvents]

theorem runEpoch_graph {G O : Type} (E : Engine G O) (s : TrainState G O) :
    (runEpoch E s).graph = s.graph := rfl

theorem runEpoch_y {G O : Type} (E : Engine G O) (s : TrainState G O) :
    (runEpoch E s).y = s.y := rfl

theorem runEpoch_model {G O : Type} (E : Engine G O) (s : TrainState G O) :
    (runEpoch E s).model =
      (E.adamStep (E.backward (E.crossEntropy (epochLogits s) s.y) s.grads)
        s.opt s.model).2 := rfl

theorem runEpoch_loss {G O : Type} (E : Engine G O) (s : TrainState G O) :
    (runEpoch E s).loss = E.crossEntropy (epochLogits s) s.y := rfl

theorem runEpochs_succ {G O : Type} (E : Engine G O) (n : Nat) (s : TrainState G O) :
    runEpochs E (n + 1) s = runEpoch E (runEpochs E n s) := by
  simp [runEpochs, List.range_succ]

theorem runEpochs_graph {G O : Type} (E : Engine G O) :
    ∀ (n : Nat) (s : TrainState G O), (runEpochs E n s).graph = s.graph := by
  intro n
  induction n with
  | zero => intro s; rfl
  | succ m ih => intro s; rw [runEpochs_succ, runEpoch_graph, ih]

theorem runEpochs_y {G O : Type} (E : Engine G O) :
    ∀ (n : Nat) (s : TrainState G O), (runEpochs E n s).y = s.y := by
  intro n
  induction n with
  | zero => intro s; rfl
  | succ m ih => intro s; rw [runEpochs_succ, runEpoch_y, ih]

theorem runEpochs_trace {G O : Type} (E : Engine G O) :
    ∀ (n : Nat) (s : TrainState G O),
      (runEpochs E n s).trace = s.trace ++ (List.replicate n epochEvents).flatten := by
  intro n
  induction n with
  | zero => intro s; simp [runEpochs]
  | succ m ih =>
      intro s
      rw [runEpochs_succ, runEpoch_trace, ih, List.replicate_succ']
      simp

theorem runEpochs_modelInv {G O : Type} (E : Engine G O)
    (hstep : ∀ (g : G) (o : O) (m : Model), ModelInv m → ModelInv (E.adamStep g o m).2) :
    ∀ (n : Nat) (s : TrainState G O), ModelInv s.model →
      ModelInv ((runEpochs E n s).model) := by
  intro n
  induction n with
  | zero => intro s h; exact h
  | succ m ih =>
      intro s h
      rw [runEpochs_succ, runEpoch_model]
      exact hstep _ _ _ (ih s h)

theorem trainLoop_eq_runEpochs {G O : Type} (E : Engine G O) (s : TrainState G O) :
    trainLoop E s = runEpochs E 30 s := rfl

theorem foldlM_ok {ε α β : Type} (fE : β → α → Except ε β) (f : β → α → β)
    (h : ∀ b a, fE b a = Except.ok (f b a)) :
    ∀ (l : List α) (b : β), l.foldlM fE b = Except.ok (l.foldl f b) := by
  intro l
  induction l with
  | nil => intro b; rfl
  | cons a t ih =>
      intro b
      simp only [List.foldlM, List.foldl, h b a]
      exact ih (f b a)

theorem runEpochE_toE {ε G O : Type} (E : Engine G O) (s : TrainState G O) :
    runEpochE (Engine.toE (ε := ε) E) s = Except.ok (runEpoch E s) := rfl

/-! ### Claim theorems -/

/-- C3: `build_graph()` packages the hard-coded edge list and the feature
arrays into a single graph object: the returned graph has `num_nodes = 10`,
`num_edges = 14` (the length of the edge list), a node feature `nfeat`
that is a float32 array with one 16-dimensional row per node, and an edge
feature `efeat` that is a float32 array with one 1-dimensional row per
edge. -/
theorem build_graph_shapes (rngN rngE : Nat → Nat → ℚ) :
    (build_graph rngN rngE).num_nodes = 10 ∧
    (build_graph rngN rngE).num_edges = 14 ∧
    edge_list.length = 14 ∧
    (build_graph rngN rngE).node_feat.lookup "nfeat" =
      some ((randn rngN 10 16).astype "float32") ∧
    ((randn rngN 10 16).astype "float32").dtype = "float32" ∧
    (nfeatOf (build_graph rngN rngE)).map List.length = List.replicate 10 16 ∧
    (build_graph rngN rngE).edge_feat.lookup "efeat" =
      some ((randn rngE 14 1).astype "float32") ∧
    ((randn rngE 14 1).astype "float32").dtype = "float32" ∧
    (efeatOf (build_graph rngN rngE)).map List.length = List.replicate 14 1 := by
  refine ⟨rfl, rfl, rfl, rfl, rfl, ?_, rfl, rfl, ?_⟩
  · show ((randn rngN 10 16).data).map List.length = List.replicate 10 16
    unfold randn
    simpa using
      map_length_of_const (fun i => (List.range 16).map (fun j => rngN i j)) 16
        (fun a => by simp) (List.range 10)
  · show ((randn rngE 14 1).data).map List.length = List.replicate 14 1
    unfold randn
    simpa using
      map_length_of_const (fun i => (List.range 1).map (fun j => rngE i j)) 1
        (fun a => by simp) (List.range 14)

/-- C4: the network the notebook trains, `GCN(16, 2)` with the default
`num_layers`, holds exactly two `GCNConv` layers in its layer list, the
final linear output layer being a separate field. -/
theorem gcn_two_layers (w : Mat) (b : List ℚ) :
    (GCN.mkDefault 16 2 w b).gcns.length = 2 ∧
    (GCN.mkDefault 16 2 w b).gcns =
      [{ input_size := 16, output_size := 16, activation := "relu", norm := true },
       { input_size := 16, output_size := 16, activation := "relu", norm := true }] ∧
    (GCN.mkDefault 16 2 w b).output =
      { in_features := 16, out_features := 2, weight := w, bias := b } :=
  ⟨rfl, rfl, rfl⟩

/-- C8: every edge `(src, dst)` of the hard-coded edge list has both
endpoints in `[0, 10)`, so both are valid node indices for the declared
`num_nodes = 10`. -/
theorem edge_list_bounds (rngN rngE : Nat → Nat → ℚ) (p : Int × Int)
    (hp : p ∈ (build_graph rngN rngE).edges) :
    0 ≤ p.1 ∧ p.1 < ((build_graph rngN rngE).num_nodes : Int) ∧
    0 ≤ p.2 ∧ p.2 < ((build_graph rngN rngE).num_nodes : Int) := by
  have hn : (((build_graph rngN rngE).num_nodes : Nat) : Int) = 10 := rfl
  rw [hn]
  have h : p ∈ edge_list := hp
  fin_cases h <;> exact ⟨by decide, by decide, by decide, by decide⟩

theorem edge_list_bounds_witness :
    ((2 : Int), (0 : Int)) ∈ (build_graph witnessRng witnessRng).edges ∧
    (0 ≤ ((2 : Int), (0 : Int)).1 ∧
     ((2 : Int), (0 : Int)).1 < ((build_graph witnessRng witnessRng).num_nodes : Int) ∧
     0 ≤ ((2 : Int), (0 : Int)).2 ∧
     ((2 : Int), (0 : Int)).2 < ((build_graph witnessRng witnessRng).num_nodes : Int)) :=
  ⟨by decide, edge_list_bounds witnessRng witnessRng ((2 : Int), (0 : Int)) (by decide)⟩

/-- C9: the label list `y` has exactly one entry per node of the graph
(length 10) and every entry is 0 or 1, a valid class index strictly below
the classifier's `num_class = 2`. -/
theorem labels_valid (w : Mat) (b : List ℚ) (rngN rngE : Nat → Nat → ℚ) :
    y.length = (build_graph rngN rngE).num_nodes ∧
    y.length = 10 ∧
    ∀ v ∈ y, (v = 0 ∨ v = 1) ∧
      0 ≤ v ∧ v < ((GCN.mkDefault 16 2 w b).num_class : Int) := by
  refine ⟨rfl, rfl, ?_⟩
  intro v hv
  have hnc : (((GCN.mkDefault 16 2 w b).num_class : Nat) : Int) = 2 := rfl
  rw [hnc]
  fin_cases hv <;> exact ⟨by decide, by decide, by decide⟩

theorem labels_valid_witness :
    y.length = 10 ∧
    (((0 : Int) = 0 ∨ (0 : Int) = 1) ∧
     0 ≤ (0 : Int) ∧ (0 : Int) < ((GCN.mkDefault 16 2 [] []).num_class : Int)) :=
  ⟨(labels_valid [] [] witnessRng witnessRng).2.1,
   (labels_valid [] [] witnessRng witnessRng).2.2 0 (by decide)⟩

/-- C1: `GCN.forward(graph, feature)` is exactly the sequential
application of the stacked `GCNConv` layers in index order followed by the
linear output layer, and the resulting logits have `num_class` columns. -/
theorem gcn_forward_composition (ca : ConvApply) (input_size num_class : Nat)
    (w : Mat) (b : List ℚ) (num_layers hidden_size : Nat) (g : PGLGraph)
    (feature : Mat) :
    GCN.forward ca (GCN.make input_size num_class w b num_layers hidden_size) g feature =
      Linear.forward (GCN.make input_size num_class w b num_layers hidden_size).output
        (composeLayers ca g
          (GCN.make input_size num_class w b num_layers hidden_size).gcns feature) ∧
    (GCN.forward ca (GCN.make input_size num_class w b num_layers hidden_size) g
        feature).map List.length =
      List.replicate
        (GCN.forward ca (GCN.make input_size num_class w b num_layers hidden_size) g
          feature).length num_class := by
  constructor
  · unfold GCN.forward
    rw [foldl_eq_composeLayers]
  · unfold GCN.forward
    rw [Linear.forward_rowLengths, Linear.forward_length]
    rfl

/-- C5: the loop-with-branch layer construction of `GCN.__init__` is
extensionally equal to the straight-line construction (first layer
`input_size → hidden_size`, every later layer `hidden_size → hidden_size`,
all with relu activation and normalization), and `GCN.forward` is the
plain composition of those library operators followed by the library
linear layer. -/
theorem gcn_straightline_refinement (input_size hidden_size num_layers num_class : Nat)
    (w : Mat) (b : List ℚ) :
    GCN.buildGcns input_size hidden_size num_layers =
      gcnsStraightLine input_size hidden_size num_layers ∧
    ∀ (ca : ConvApply) (g : PGLGraph) (f : Mat),
      GCN.forward ca (GCN.make input_size num_class w b num_layers hidden_size) g f =
        Linear.forward
          { in_features := hidden_size, out_features := num_class,
            weight := w, bias := b }
          (composeLayers ca g (gcnsStraightLine input_size hidden_size num_layers) f) := by
  refine ⟨buildGcns_eq_straightLine input_size hidden_size num_layers, ?_⟩
  intro ca g f
  unfold GCN.forward
  rw [foldl_eq_composeLayers]
  have hg : (GCN.make input_size num_class w b num_layers hidden_size).gcns =
      gcnsStraightLine input_size hidden_size num_layers :=
    buildGcns_eq_straightLine input_size hidden_size num_layers
  rw [hg]
  rfl

/-- C2: the training loop runs for exactly 30 epochs, and each iteration
performs, in this order: a forward pass, the cross-entropy loss, a
backward pass, an optimizer step, and a gradient clear (followed only by
the loss print) — the call trace of the whole loop is exactly 30 copies of
that sequence. -/
theorem training_loop_trace (G O : Type) (E : Engine G O) (s : TrainState G O) :
    (trainLoop E s).trace = s.trace ++ (List.replicate 30 epochEvents).flatten ∧
    trainLoop E s = runEpochs E 30 s ∧
    (∀ t : TrainState G O, (runEpoch E t).trace = t.trace ++ epochEvents) ∧
    (∀ t : TrainState G O, (runEpoch E t).loss =
      E.crossEntropy (t.model.forward t.graph (nfeatOf t.graph)) t.y) := by
  refine ⟨?_, rfl, fun t => runEpoch_trace E t, fun t => runEpoch_loss E t⟩
  rw [trainLoop_eq_runEpochs]
  exact runEpochs_trace E 30 s

/-- C10: each training iteration — and hence the whole loop — leaves the
graph (node count, edge list, node features, edge features) and the label
tensor unchanged; only the model, gradient and optimizer fields of the
state are touched. -/
theorem training_frame (G O : Type) (E : Engine G O) (s : TrainState G O) :
    (runEpoch E s).graph = s.graph ∧
    (runEpoch E s).y = s.y ∧
    (trainLoop E s).graph = s.graph ∧
    (trainLoop E s).y = s.y ∧
    (trainLoop E s).graph.num_nodes = s.graph.num_nodes ∧
    (trainLoop E s).graph.edges = s.graph.edges ∧
    (trainLoop E s).graph.node_feat = s.graph.node_feat ∧
    (trainLoop E s).graph.edge_feat = s.graph.edge_feat := by
  have h30 : (trainLoop E s).graph = s.graph := by
    rw [trainLoop_eq_runEpochs]
    exact runEpochs_graph E 30 s
  have hy30 : (trainLoop E s).y = s.y := by
    rw [trainLoop_eq_runEpochs]
    exact runEpochs_y E 30 s
  exact ⟨runEpoch_graph E s, runEpoch_y E s, h30, hy30,
    by rw [h30], by rw [h30], by rw [h30], by rw [h30]⟩

theorem makeE_ok {ε : Type} (w : Mat) (b : List ℚ)
    (input_size num_class num_layers hidden_size : Nat) :
    GCN.makeE (ε := ε)
      (fun a o act nrm => Except.ok
        { input_size := a, output_size := o, activation := act, norm := nrm })
      (fun i o => Except.ok
        { in_features := i, out_features := o, weight := w, bias := b })
      input_size num_class num_layers hidden_size =
      Except.ok (GCN.make input_size num_class w b num_layers hidden_size) := by
  have h : ∀ (acc : List GCNConv) (i : Nat),
      (do
        let c ← if i = 0 then
            (Except.ok
              { input_size := input_size, output_size := hidden_size,
                activation := "relu", norm := true } : Except ε GCNConv)
          else
            Except.ok
              { input_size := hidden_size, output_size := hidden_size,
                activation := "relu", norm := true }
        pure (acc ++ [c])) =
      Except.ok (acc ++ [if i = 0 then
          ({ input_size := input_size, output_size := hidden_size,
             activation := "relu", norm := true } : GCNConv)
        else
          { input_size := hidden_size, output_size := hidden_size,
            activation := "relu", norm := true }]) := by
    intro acc i
    by_cases hi : i = 0 <;> simp [hi]
  simp only [GCN.makeE]
  rw [foldlM_ok _ _ h]
  rfl

theorem forwardE_ok {ε : Type} (ca : ConvApply) (net : GCN) (g : PGLGraph)
    (f : Mat) :
    GCN.forwardE (ε := ε) (fun c gr x => Except.ok (ca c gr x))
      (fun l x => Except.ok (Linear.forward l x)) net g f =
      Except.ok (GCN.forward ca net g f) := by
  simp only [GCN.forwardE]
  rw [foldlM_ok (fun x m => Except.ok (ca m g x)) (fun x m => ca m g x)
    (fun x m => rfl)]
  rfl

theorem trainLoopE_ok {ε G O : Type} (E : Engine G O) (s : TrainState G O) :
    trainLoopE (Engine.toE (ε := ε) E) s = Except.ok (trainLoop E s) := by
  simp only [trainLoopE, trainLoop]
  rw [foldlM_ok (fun t _ => runEpochE (Engine.toE (ε := ε) E) t)
    (fun t _ => runEpoch E t) (fun t _ => runEpochE_toE E t)]

/-- C7: no component of the notebook performs error handling of its own:
`build_graph`, `GCN.__init__`, `GCN.forward` and the training loop are
exactly the monadic chains of their external library calls — when every
library call succeeds each component returns the pure result, and when a
library call fails its error is returned unchanged (nothing is validated,
raised, or caught by the notebook's code). -/
theorem no_error_handling (ε G O : Type) :
    (∀ rngN rngE : Nat → Nat → ℚ,
      build_graphE (ε := ε)
        (fun r c => Except.ok (randn rngN r c))
        (fun r c => Except.ok (randn rngE r c))
        (fun es n nf ef => Except.ok
          { edges := es, num_nodes := n, node_feat := nf, edge_feat := ef }) =
        Except.ok (build_graph rngN rngE)) ∧
    (∀ (e : ε) (rngN rngE : Nat → Nat → ℚ),
      build_graphE
        (fun r c => Except.ok (randn rngN r c))
        (fun r c => Except.ok (randn rngE r c))
        (fun _ _ _ _ => Except.error e) = Except.error e) ∧
    (∀ (w : Mat) (b : List ℚ) (input_size num_class num_layers hidden_size : Nat),
      GCN.makeE (ε := ε)
        (fun a o act nrm => Except.ok
          { input_size := a, output_size := o, activation := act, norm := nrm })
        (fun i o => Except.ok
          { in_features := i, out_features := o, weight := w, bias := b })
        input_size num_class num_layers hidden_size =
        Except.ok (GCN.make input_size num_class w b num_layers hidden_size)) ∧
    (∀ (e : ε) (lc : Nat → Nat → Except ε Linear)
       (input_size num_class hidden_size : Nat),
      GCN.makeE (fun _ _ _ _ => Except.error e) lc
        input_size num_class 2 hidden_size = Except.error e) ∧
    (∀ (ca : ConvApply) (net : GCN) (g : PGLGraph) (f : Mat),
      GCN.forwardE (ε := ε) (fun c gr x => Except.ok (ca c gr x))
        (fun l x => Except.ok (Linear.forward l x)) net g f =
        Except.ok (GCN.forward ca net g f)) ∧
    (∀ (e : ε) (lE : Linear → Mat → Except ε Mat) (nc nl hs : Nat)
       (c : GCNConv) (rest : List GCNConv) (out : Linear) (g : PGLGraph) (f : Mat),
      GCN.forwardE (fun _ _ _ => Except.error e) lE
        { num_class := nc, num_layers := nl, hidden_size := hs,
          gcns := c :: rest, output := out } g f = Except.error e) ∧
    (∀ (E : Engine G O) (s : TrainState G O),
      trainLoopE (Engine.toE (ε := ε) E) s = Except.ok (trainLoop E s)) ∧
    (∀ (e : ε) (E : Engine G O) (s : TrainState G O),
      runEpochE { Engine.toE (ε := ε) E with crossEntropy := fun _ _ => Except.error e }
        s = Except.error e) :=
  ⟨fun _ _ => rfl,
   fun _ _ _ => rfl,
   fun w b i nc nl hs => makeE_ok w b i nc nl hs,
   fun _ _ _ _ _ => rfl,
   fun ca net g f => forwardE_ok ca net g f,
   fun _ _ _ _ _ _ _ _ _ _ => rfl,
   fun E s => trainLoopE_ok E s,
   fun _ _ _ => rfl⟩

/-- C6: with the notebook's setup (`build_graph`, `GCN(16, 2)`, labels `y`)
and the library contracts that `GCNConv` returns one row per node and the
optimizer step preserves the model architecture, every epoch's forward
pass produces logits with one row per node of the 10-node graph and
`num_class = 2` columns from the 16-dimensional node features, and the
epoch's loss is the cross-entropy of those logits against the per-node
label tensor `y`. -/
theorem training_node_classification (G O : Type) (E : Engine G O)
    (rngN rngE : Nat → Nat → ℚ) (w : Mat) (b : List ℚ) (ca : ConvApply)
    (g0 : G) (o0 : O)
    (hca : rowPreserving ca)
    (hstep : ∀ (g : G) (o : O) (m : Model), ModelInv m → ModelInv (E.adamStep g o m).2)
    (k : Nat) :
    (epochLogits (runEpochs E k (notebookState rngN rngE w b ca g0 o0))).map
        List.length = List.replicate 10 2 ∧
    (nfeatOf (runEpochs E k (notebookState rngN rngE w b ca g0 o0)).graph).map
        List.length = List.replicate 10 16 ∧
    (runEpochs E k (notebookState rngN rngE w b ca g0 o0)).y = y ∧
    y.length = (runEpochs E k (notebookState rngN rngE w b ca g0 o0)).graph.num_nodes ∧
    (runEpoch E (runEpochs E k (notebookState rngN rngE w b ca g0 o0))).loss =
      E.crossEntropy
        (epochLogits (runEpochs E k (notebookState rngN rngE w b ca g0 o0))) y := by
  have hgraph : (runEpochs E k (notebookState rngN rngE w b ca g0 o0)).graph =
      (notebookState rngN rngE w b ca g0 o0).graph :=
    runEpochs_graph E k (notebookState rngN rngE w b ca g0 o0)
  have hy : (runEpochs E k (notebookState rngN rngE w b ca g0 o0)).y = y := by
    rw [runEpochs_y]
    rfl
  have hinv : ModelInv (runEpochs E k (notebookState rngN rngE w b ca g0 o0)).model :=
    runEpochs_modelInv E hstep k (notebookState rngN rngE w b ca g0 o0) ⟨hca, rfl⟩
  have hnn : (notebookState rngN rngE w b ca g0 o0).graph.num_nodes = 10 := rfl
  have hnfeat0 : nfeatOf (notebookState rngN rngE w b ca g0 o0).graph =
      (randn rngN 10 16).data := rfl
  have hnrows : (nfeatOf (notebookState rngN rngE w b ca g0 o0).graph).map
      List.length = List.replicate 10 16 := by
    rw [hnfeat0]
    unfold randn
    simpa using
      map_length_of_const (fun i => (List.range 16).map (fun j => rngN i j)) 16
        (fun a => by simp) (List.range 10)
  have hnlen : (nfeatOf (notebookState rngN rngE w b ca g0 o0).graph).length = 10 := by
    have := congrArg List.length hnrows
    simpa using this
  have hfold : ((runEpochs E k (notebookState rngN rngE w b ca g0 o0)).model.net.gcns.foldl
      (fun f m => (runEpochs E k (notebookState rngN rngE w b ca g0 o0)).model.convApply
        m (runEpochs E k (notebookState rngN rngE w b ca g0 o0)).graph f)
      (nfeatOf (runEpochs E k (notebookState rngN rngE w b ca g0 o0)).graph)).length =
      10 := by
    rw [foldl_conv_length _ _ hinv.1, hgraph, hnn]
    rw [hgraph, hnlen, hnn]
  have hlog : (epochLogits (runEpochs E k (notebookState rngN rngE w b ca g0 o0))).map
      List.length = List.replicate 10 2 := by
    unfold epochLogits Model.forward GCN.forward
    rw [Linear.forward_rowLengths, hfold, hinv.2]
  refine ⟨hlog, ?_, hy, ?_, ?_⟩
  · rw [hgraph]
    exact hnrows
  · rw [hgraph, hnn]
    rfl
  · rw [runEpoch_loss, hy]

theorem training_node_classification_witness :
    rowPreserving witnessCa ∧
    (∀ (g : Unit) (o : Unit) (m : Model),
      ModelInv m → ModelInv (witnessEngine.adamStep g o m).2) ∧
    ((epochLogits (runEpochs witnessEngine 0
        (notebookState witnessRng witnessRng [] [] witnessCa () ()))).map
        List.length = List.replicate 10 2 ∧
     (nfeatOf (runEpochs witnessEngine 0
        (notebookState witnessRng witnessRng [] [] witnessCa () ())).graph).map
        List.length = List.replicate 10 16 ∧
     (runEpochs witnessEngine 0
        (notebookState witnessRng witnessRng [] [] witnessCa () ())).y = y ∧
     y.length = (runEpochs witnessEngine 0
        (notebookState witnessRng witnessRng [] [] witnessCa () ())).graph.num_nodes ∧
     (runEpoch witnessEngine (runEpochs witnessEngine 0
        (notebookState witnessRng witnessRng [] [] witnessCa () ()))).loss =
       witnessEngine.crossEntropy
         (epochLogits (runEpochs witnessEngine 0
           (notebookState witnessRng witnessRng [] [] witnessCa () ()))) y) :=
  ⟨fun c g f => by simp [witnessCa],
   fun _ _ _ h => h,
   training_node_classification Unit Unit witnessEngine witnessRng witnessRng [] []
     witnessCa () () (fun c g f => by simp [witnessCa]) (fun _ _ _ h => h) 0⟩

end PGL
